import Mathlib

/-!
Verification of the delta-neutral cycle farmer (01 Exchange maker leg,
Lighter DEX taker leg).  The definitions below are a shallow embedding of
the Python source: prices and sizes are modelled as exact rationals,
Python float literals become the corresponding rationals, and the
stateful phases of the cycle state machine become pure functions over an
explicit environment (sequences of position reads, order outcomes, clock
values) that stands for the venue responses observed during a run.
-/

namespace CycleFarm

/-- Python round-half-to-even of a rational to an integer
(the semantics of the builtin round on an exact value). -/
def roundHalfEven (q : ℚ) : ℤ :=
  let f := ⌊q⌋
  let frac := q - (f : ℚ)
  if frac < 1/2 then f
  else if 1/2 < frac then f + 1
  else if f % 2 = 0 then f else f + 1

/-- Python round(q, nd): round to nd decimal digits, half to even. -/
def pyRound (nd : ℕ) (q : ℚ) : ℚ :=
  ((roundHalfEven (q * (10 : ℚ) ^ nd) : ℤ) : ℚ) / (10 : ℚ) ^ nd

/-! Configuration constants from config.py. -/

/-- config.ORDER_SIZE_RANGE_USD = (1000, 1300). -/
def ORDER_SIZE_RANGE_USD : ℚ × ℚ := (1000, 1300)

/-- config.LEVERAGE = 40. -/
def LEVERAGE : ℚ := 40

/-- config.SPREAD_OFFSET_BPS = 4. -/
def SPREAD_OFFSET_BPS : ℚ := 4

/-- config.CLOSE_BUFFER_USD = 20.0. -/
def CLOSE_BUFFER_USD : ℚ := 20

/-- The 0.00001 position-delta detection threshold used throughout
cycle_farmer.py (fill detection, corrective hedge, flat checks). -/
def positionDetectEps : ℚ := 1/100000

/-- The 0.000005 dust threshold used by the unwind phase. -/
def unwindDustEps : ℚ := 1/200000

/-! ## Venue position reads (exchange_01.get_position, lighter_client.get_position)

The HTTP/SDK fetch is modelled by an outcome value: the read raised an
exception, the account was missing, or it returned a list of position
entries. -/

/-- One entry of the positions array returned by GET /account/{id} on 01
(the nested perp layout and the flat layout expose the same three fields
and feed the same signed-size formula). -/
structure O1PosEntry where
  marketId : ℕ
  baseSize : ℚ
  isLong : Bool
  deriving DecidableEq

/-- Outcome of the 01 position fetch: exception, missing account id, or data. -/
inductive O1Fetch
  | err
  | noAccount
  | ok (positions : List O1PosEntry)
  deriving DecidableEq

/-- config.O1_MARKET_ID = 0. -/
def O1_MARKET_ID : ℕ := 0

/-- Exchange01Client.get_position: returns signed size for the configured
market, 0.0 when the account id is unset, on any exception, or when no
entry matches the market. -/
def o1GetPosition : O1Fetch → ℚ
  | .err => 0
  | .noAccount => 0
  | .ok ps =>
    match ps.find? (fun p => p.marketId == O1_MARKET_ID) with
    | some p => if p.isLong then p.baseSize else -p.baseSize
    | none => 0

/-- One entry of the positions array returned by the Lighter account API. -/
structure LighterPosEntry where
  marketId : ℕ
  rawSize : ℚ
  sign : ℤ
  deriving DecidableEq

/-- Outcome of the Lighter position fetch. -/
inductive LighterFetch
  | err
  | noAccounts
  | ok (positions : List LighterPosEntry)
  deriving DecidableEq

/-- config.LIGHTER_MARKET_ID = 1. -/
def LIGHTER_MARKET_ID : ℕ := 1

/-- LighterClient.get_position: raw size times sign (a zero sign is
replaced by 1), 0.0 on exception, missing accounts, or no matching market. -/
def lighterGetPosition : LighterFetch → ℚ
  | .err => 0
  | .noAccounts => 0
  | .ok ps =>
    match ps.find? (fun p => p.marketId == LIGHTER_MARKET_ID) with
    | some p => p.rawSize * (((if p.sign = 0 then 1 else p.sign) : ℤ) : ℚ)
    | none => 0

/-! ## Pre-cycle balance gate (_run_cycles lines 174-210) -/

/-- min_required = (ORDER_SIZE_RANGE_USD[1] / LEVERAGE) * 1.5. -/
def minRequired : ℚ := ORDER_SIZE_RANGE_USD.2 / LEVERAGE * (3/2)

/-- The pre-cycle balance gate: the bot alerts and pauses (enabled := false,
cycle skipped) when either venue reports free collateral that is positive
and below min_required. -/
def preCyclePause (freeCol01 freeColLighter : ℚ) : Bool :=
  (decide (0 < freeCol01) && decide (freeCol01 < minRequired)) ||
  (decide (0 < freeColLighter) && decide (freeColLighter < minRequired))

/-! ## Opening phase fill poll (_phase_opening lines 455-521)

The poll loop reads the 01 position every POLL_INTERVAL_S seconds and
compares it with the position recorded before the orders were placed.
The reads observed before the timeout elapses are a list; the read taken
after the timeout cancel is a separate value. -/

/-- Side of the maker order on 01. -/
inductive Side
  | bid
  | ask
  deriving DecidableEq

/-- Result of the opening phase poll: a detected fill (side, size,
assumed price) returning True, or no fill returning False. -/
inductive OpenOutcome
  | fill (side : Side) (size : ℚ) (price : ℚ)
  | noFill
  deriving DecidableEq

/-- The fill result built from a position delta: side from the sign of
the delta, size its absolute value, price the resting price of that side. -/
def fillFromDelta (delta bidPrice askPrice : ℚ) : OpenOutcome :=
  if 0 < delta then .fill .bid |delta| bidPrice
  else .fill .ask |delta| askPrice

/-- The opening-phase poll loop: each in-window position read is compared
with the pre-order baseline; a delta above the detection threshold is an
immediate fill.  When the reads are exhausted (timeout) the orders are
cancelled and one final read is taken; a delta above the threshold there
is still accepted as a partial fill, otherwise the phase reports no fill. -/
def openPoll (initPos bidPrice askPrice : ℚ) : List ℚ → ℚ → OpenOutcome
  | [], finalRead =>
    let d := finalRead - initPos
    if positionDetectEps < |d| then fillFromDelta d bidPrice askPrice
    else .noFill
  | r :: rest, finalRead =>
    let d := r - initPos
    if positionDetectEps < |d| then fillFromDelta d bidPrice askPrice
    else openPoll initPos bidPrice askPrice rest finalRead

/-! ## Corrective hedge after a fill (_run_cycles lines 278-299) -/

/-- After a successful hedge the settled 01 position is re-read;
correction = round(settled_delta - hedged_size, 5) and a single
corrective hedge of that size is issued when it exceeds 0.00001.
The returned list holds the sizes of the corrective hedges issued. -/
def correctiveHedgeOrders (preOpenPos settledPos hedgedSize : ℚ) : List ℚ :=
  let settledDelta := |settledPos - preOpenPos|
  let correction := pyRound 5 (settledDelta - hedgedSize)
  if positionDetectEps < correction then [correction] else []

/-! ## Reprice steps (_phase_closing lines 776-814, _phase_opening lines 523-569) -/

/-- The resting order tracked by a reprice loop: its price and its id
(none when no order is resting). -/
structure RepriceState where
  price : ℚ
  orderId : Option ℕ
  deriving DecidableEq

/-- Effect of one reprice iteration: how many cancels and placements were
issued and the updated resting-order state. -/
structure RepriceEffect where
  cancels : ℕ
  places : ℕ
  next : RepriceState
  deriving DecidableEq

/-- Closing reprice price: one CLOSE_BUFFER_USD outside the 01 top of
book on the close side, rounded to one decimal. -/
def closingNewPrice (closeSide : Side) (o1Bid o1Ask : ℚ) : ℚ :=
  if closeSide = .ask then pyRound 1 (o1Ask + CLOSE_BUFFER_USD)
  else pyRound 1 (o1Bid - CLOSE_BUFFER_USD)

/-- One iteration of the closing reprice block: when the recomputed price
differs from the resting price, cancel the old order (when one exists)
and place a new one; otherwise do nothing. -/
def closingRepriceStep (closeSide : Side) (o1Bid o1Ask : ℚ)
    (s : RepriceState) (newId : ℕ) : RepriceEffect :=
  let np := closingNewPrice closeSide o1Bid o1Ask
  if np ≠ s.price then
    ⟨if s.orderId.isSome then 1 else 0, 1, ⟨np, some newId⟩⟩
  else ⟨0, 0, s⟩

/-- Opening remainder reprice price: the fresh Lighter best bid minus the
offset for a bid (ask plus the offset for an ask), offset computed from
the fresh Lighter mid and SPREAD_OFFSET_BPS, rounded to one decimal. -/
def openingNewPrice (side : Side) (lighterBid lighterAsk : ℚ) : ℚ :=
  let mid := (lighterBid + lighterAsk) / 2
  let off := mid * (SPREAD_OFFSET_BPS / 10000)
  if side = .bid then pyRound 1 (lighterBid - off)
  else pyRound 1 (lighterAsk + off)

/-- One iteration of the opening remainder reprice block (locked side):
cancel-and-replace exactly when the recomputed price differs from the
resting price. -/
def openingRepriceStep (side : Side) (lighterBid lighterAsk : ℚ)
    (s : RepriceState) (newId : ℕ) : RepriceEffect :=
  let np := openingNewPrice side lighterBid lighterAsk
  if np ≠ s.price then
    ⟨if s.orderId.isSome then 1 else 0, 1, ⟨np, some newId⟩⟩
  else ⟨0, 0, s⟩

/-! ## Holding phase with liquidation monitor (_phase_holding lines 609-692) -/

/-- Leveraged return estimate of the 01 leg: long (side = bid) gains when
the mid rises above the open price, short when it falls below. -/
def legPnl01 (side : Side) (openPrice lev mid : ℚ) : ℚ :=
  if side = .bid then (mid - openPrice) / openPrice * lev
  else (openPrice - mid) / openPrice * lev

/-- Leveraged return estimate of the Lighter hedge leg (opposite
direction of the 01 leg); when the stored hedge price is zero the open
price is the fallback reference. -/
def legPnlLighter (side : Side) (hedgePrice openPrice lev mid : ℚ) : ℚ :=
  let limitPrice := if hedgePrice = 0 then openPrice else hedgePrice
  if side = .bid then (limitPrice - mid) / limitPrice * lev
  else (mid - limitPrice) / limitPrice * lev

/-- The -0.80 liquidation-risk threshold. -/
def liqThreshold : ℚ := -(4/5)

/-- Exit of the holding phase: the sampled duration elapsed, the
liquidation monitor tripped (with the elapsed time at that check), or the
environment supplied no further mid-price reads. -/
inductive HoldExit
  | completed (elapsed : ℚ)
  | risk (elapsed : ℚ)
  | ranOut
  deriving DecidableEq

/-- The holding loop: while time remains, sleep min(remaining, 15) and
then read the Lighter mid; if either leg's estimated leveraged return is
below the threshold, return immediately.  (The rare externally-flat break
that fires only when the elapsed wall-clock time is an exact multiple of
60 is not modelled; it occurs after the risk check in the same iteration
and so cannot mask a risk exit.) -/
def holdLoop (side : Side) (openPrice hedgePrice lev holdS : ℚ) :
    ℚ → List ℚ → HoldExit
  | t, mids =>
    if holdS - t ≤ 0 then .completed t
    else
      match mids with
      | [] => .ranOut
      | m :: rest =>
        let t' := t + min (holdS - t) 15
        if legPnl01 side openPrice lev m < liqThreshold ∨
            legPnlLighter side hedgePrice openPrice lev m < liqThreshold then
          .risk t'
        else holdLoop side openPrice hedgePrice lev holdS t' rest

/-! ## Unwind phase (_phase_unwinding lines 822-927) -/

/-- Side of a taker market order on Lighter. -/
inductive TakerSide
  | buy
  | sell
  deriving DecidableEq

/-- A taker order submitted during the unwind phase, with its
client-assigned id. -/
structure TakerOrder where
  side : TakerSide
  size : ℚ
  customId : ℕ
  deriving DecidableEq

/-- Alerts the unwind phase can push. -/
inductive UnwindAlert
  | flipNoRetry
  | retryWarn
  | critical
  | orderFail
  deriving DecidableEq

/-- Venue responses observed by one run of the unwind phase:
the two settle-delay position reads, whether the first taker order was
accepted, the position reads of the verification poll (at most the
bounded 20 s window), the read taken after the single retry, and the
millisecond clock values at the two order submissions. -/
structure UnwindEnv where
  read1 : ℚ
  read2 : ℚ
  orderOk : Bool
  pollReads : List ℚ
  retryRead : ℚ
  t1 : ℕ
  t2 : ℕ
  deriving DecidableEq

/-- Result of the unwind phase: the taker orders submitted, the last
position value observed for the taker venue, and the alerts pushed. -/
structure UnwindResult where
  orders : List TakerOrder
  finalPos : ℚ
  alerts : List UnwindAlert
  deriving DecidableEq

/-- The sign-flip test used during unwind verification: the pre-unwind
position was long and the fresh read is short beyond dust, or vice versa. -/
def flippedSign (pre cur : ℚ) : Bool :=
  (decide (0 < pre) && decide (cur < -unwindDustEps)) ||
  (decide (pre < 0) && decide (unwindDustEps < cur))

/-- The settle-delay double read: when the first read is beyond dust a
second read is taken, and the smaller-in-magnitude of the two is trusted. -/
def unwindSelect (e : UnwindEnv) : ℚ :=
  if unwindDustEps < |e.read1| then
    if |e.read2| < |e.read1| then e.read2 else e.read1
  else e.read1

/-- The verification poll: consume fresh position reads until one is
flat (below dust), one flips sign relative to the pre-unwind position, or
the window is exhausted; the value returned is the last read consumed
(the pre-unwind position when no read arrived). -/
def pollVerify (pre : ℚ) : ℚ → List ℚ → ℚ
  | cur, [] => cur
  | _, r :: rest =>
    if |r| < unwindDustEps then r
    else if flippedSign pre r then r
    else pollVerify pre r rest

/-- The unwind phase.  Select the residual position from the two settle
reads; if it is dust, do nothing.  Otherwise submit a taker order on the
opposite side for its size with a clock-derived id; if the submission is
rejected, alert.  Otherwise poll for flatness: a sign flip halts with an
alert and no retry; a residual without a flip triggers exactly one retry
with a fresh clock-derived id, followed by a critical alert when the
post-retry read is still not flat. -/
def unwindPhase (e : UnwindEnv) : UnwindResult :=
  let pos := unwindSelect e
  if |pos| < unwindDustEps then ⟨[], pos, []⟩
  else
    let side : TakerSide := if 0 < pos then .sell else .buy
    let first : TakerOrder := ⟨side, |pos|, e.t1⟩
    if e.orderOk then
      let fin := pollVerify pos pos e.pollReads
      if unwindDustEps < |fin| then
        if flippedSign pos fin then ⟨[first], fin, [.flipNoRetry]⟩
        else
          let retrySide : TakerSide := if 0 < fin then .sell else .buy
          let retry : TakerOrder := ⟨retrySide, |fin|, e.t2 + 7⟩
          if unwindDustEps < |e.retryRead| then
            ⟨[first, retry], e.retryRead, [.retryWarn, .critical]⟩
          else ⟨[first, retry], e.retryRead, [.retryWarn]⟩
      else ⟨[first], fin, []⟩
    else ⟨[first], pos, [.orderFail]⟩

/-- The 01 position when the closing phase reports success: the closing
loop returns True only once the fresh 01 position read is below the
0.00001 flat threshold. -/
def closingFlat (posA : ℚ) : Prop := |posA| < positionDetectEps

/-- Combined signed exposure at the end of a cycle: the 01 position at
the closing report plus the last taker-venue position observed by the
unwind phase. -/
def cycleEndExposure (posA : ℚ) (e : UnwindEnv) : ℚ :=
  posA + (unwindPhase e).finalPos

/-! ## Fill accumulation loop (_run_cycles lines 212-309) -/

/-- Environment outcome of one accumulation attempt: the opening phase
reported no fill, or it reported a fill of the given size whose hedge
succeeded or not, together with the settled position delta re-read after
the hedge and whether the corrective hedge (if issued) succeeded. -/
inductive AttemptOutcome
  | noFill
  | fill (size : ℚ) (hedgeOk : Bool) (settledDelta : ℚ) (correctiveOk : Bool)
  deriving DecidableEq

/-- Why the accumulation loop stopped. -/
inductive AccExit
  | targetReached
  | attemptCap
  | noMoreFills
  | hedgeFailed
  | starved
  deriving DecidableEq

/-- Result of the accumulation loop.  historyRev records the value of
total_filled at the end of each iteration that updated it, most recent
first. -/
structure AccResult where
  totalFilled : ℚ
  fillAttempts : ℕ
  historyRev : List ℚ
  exitKind : AccExit
  enabled : Bool
  deriving DecidableEq

/-- The fill accumulation loop.  Guard: total_filled < target * 0.95.
Each iteration increments the attempt counter and breaks at the cap (10).
A no-fill attempt breaks when a partial total exists, otherwise retries.
A fill whose hedge fails zeroes total_filled, disables the bot and
breaks.  A hedged fill is augmented by the corrective hedge when
round(settled_delta - hedged_size, 5) exceeds the detection threshold
and the corrective order succeeds, then added to total_filled.
(starved marks the environment running out of attempt outcomes, which
the real unbounded loop cannot do before the attempt cap.) -/
def accumLoop (target : ℚ) : ℚ → ℕ → List ℚ → List AttemptOutcome → AccResult
  | total, attempts, hist, outs =>
    if ¬ total < target * (19/20) then ⟨total, attempts, hist, .targetReached, true⟩
    else if 10 < attempts + 1 then ⟨total, attempts + 1, hist, .attemptCap, true⟩
    else
      match outs with
      | [] => ⟨total, attempts + 1, hist, .starved, true⟩
      | .noFill :: rest =>
        if 0 < total then ⟨total, attempts + 1, hist, .noMoreFills, true⟩
        else accumLoop target total (attempts + 1) (total :: hist) rest
      | .fill sz hOk sd cOk :: rest =>
        if hOk then
          let c := pyRound 5 (sd - sz)
          let hedged := if positionDetectEps < c then
            (if cOk then sz + c else sz) else sz
          accumLoop target (total + hedged) (attempts + 1)
            ((total + hedged) :: hist) rest
        else ⟨0, attempts + 1, (0 : ℚ) :: hist, .hedgeFailed, false⟩

/-- A monotonicity check on a most-recent-first history list: true when
the recorded totals never decreased over time. -/
def nondecRev : List ℚ → Bool
  | [] => true
  | [_] => true
  | a :: b :: t => decide (b ≤ a) && nondecRev (b :: t)

/-- Well-formedness of an attempt outcome as produced by the opening
phase: a reported fill size is a position delta above the detection
threshold. -/
def wfOutcome : AttemptOutcome → Prop
  | .noFill => True
  | .fill sz _ _ _ => positionDetectEps < sz

/-- Downstream gate after accumulation (_run_cycles line 305): the cycle
proceeds to hold/close only when total_filled is at least 0.00001. -/
def proceedsToHold (total : ℚ) : Bool := decide (positionDetectEps ≤ total)

/-! # Theorems -/

/-- C10: every failure while fetching a venue position (an exception in
the HTTP/SDK read, or a missing account) makes both clients report
exactly 0, the same value a genuinely flat account produces. -/
theorem C10_read_failure_flat :
    o1GetPosition .err = 0 ∧ o1GetPosition .noAccount = 0 ∧
    lighterGetPosition .err = 0 ∧ lighterGetPosition .noAccounts = 0 ∧
    o1GetPosition .err = o1GetPosition (.ok []) ∧
    lighterGetPosition .err = lighterGetPosition (.ok []) := by
  simp [o1GetPosition, lighterGetPosition]

/-- C4 counterexample: a free-collateral reading of 0 on the 01 venue is
below the 48.75 USD minimum, yet the pre-cycle gate does not pause (the
code requires the reading to be strictly positive), refuting the claim
that the machine pauses for every below-threshold value. -/
theorem C4_balance_gate_counterexample :
    (0 : ℚ) < minRequired ∧ preCyclePause 0 1000 = false := by
  norm_num [preCyclePause, minRequired, ORDER_SIZE_RANGE_USD, LEVERAGE]

/-- C4 amended: the machine alerts and pauses exactly when a venue
reports free collateral that is strictly positive and below
1.5 x (max order size / leverage) = 48.75 USD; a non-positive reading
(in particular the 0.0 produced by a failed balance fetch) does not
trigger the gate. -/
theorem C4_balance_gate_amended :
    (∀ f1 f2 : ℚ, preCyclePause f1 f2 = true ↔
      ((0 < f1 ∧ f1 < 195/4) ∨ (0 < f2 ∧ f2 < 195/4))) ∧
    minRequired = 195/4 := by
  have hm : minRequired = 195/4 := by
    norm_num [minRequired, ORDER_SIZE_RANGE_USD, LEVERAGE]
  refine ⟨fun f1 f2 => ?_, hm⟩
  simp [preCyclePause, hm]

/-- C5 counterexample: with baseline 0, settled position 0.010013 and
hedged size 0.01 the gap is 0.000013, which exceeds the 0.00001 dust
threshold, yet no corrective hedge is issued because the gap rounded to
5 decimals is exactly 0.00001, refuting the claim that a corrective
hedge is issued whenever the unrounded gap exceeds the threshold. -/
theorem C5_corrective_hedge_counterexample :
    positionDetectEps < |(1/100 + 13/1000000 : ℚ) - 0| - 1/100 ∧
    correctiveHedgeOrders 0 (1/100 + 13/1000000) (1/100) = [] := by
  norm_num [correctiveHedgeOrders, positionDetectEps, pyRound, roundHalfEven,
    abs_of_pos]

/-- C5 amended: the corrective-hedge trigger is evaluated on the rounded
gap: exactly one corrective hedge, of size
round(settled delta - hedged size, 5), is issued when that rounded value
exceeds 0.00001, and none is issued otherwise. -/
theorem C5_corrective_hedge_amended (preOpenPos settledPos hedgedSize : ℚ) :
    (positionDetectEps < pyRound 5 (|settledPos - preOpenPos| - hedgedSize) →
      correctiveHedgeOrders preOpenPos settledPos hedgedSize =
        [pyRound 5 (|settledPos - preOpenPos| - hedgedSize)]) ∧
    (pyRound 5 (|settledPos - preOpenPos| - hedgedSize) ≤ positionDetectEps →
      correctiveHedgeOrders preOpenPos settledPos hedgedSize = []) := by
  unfold correctiveHedgeOrders
  constructor
  · intro h
    simp [h]
  · intro h
    simp [not_lt.2 h]

/-- C5 amended witness: a 0.00002 rounded gap issues exactly one
corrective hedge of 0.00002, and a 0.000013 gap (rounding to 0.00001)
issues none. -/
theorem C5_corrective_hedge_amended_witness :
    correctiveHedgeOrders 0 (1/100 + 2/100000) (1/100) = [2/100000] ∧
    correctiveHedgeOrders 0 (1/100 + 13/1000000) (1/100) = [] := by
  constructor
  · have h := (C5_corrective_hedge_amended 0 (1/100 + 2/100000) (1/100)).1
    have h2 : pyRound 5 (|(1/100 + 2/100000 : ℚ) - 0| - 1/100) = 2/100000 := by
      norm_num [pyRound, roundHalfEven, abs_of_pos]
    rw [h2] at h
    exact h (by norm_num [positionDetectEps])
  · have h := (C5_corrective_hedge_amended 0 (1/100 + 13/1000000) (1/100)).2
    have h2 : pyRound 5 (|(1/100 + 13/1000000 : ℚ) - 0| - 1/100) = 1/100000 := by
      norm_num [pyRound, roundHalfEven, abs_of_pos]
    rw [h2] at h
    exact h (by norm_num [positionDetectEps])

/-- C9: in both the closing reprice block and the opening remainder
reprice block, a cancel-and-replace is issued exactly when the freshly
computed price differs from the resting price (the cancel itself only
when an order id is actually resting), and an unchanged recomputed price
leaves the state untouched: no cancel, no placement, same order id. -/
theorem C9_no_redundant_requote (closeSide side : Side) (o1Bid o1Ask lBid lAsk : ℚ)
    (s s2 : RepriceState) (newId newId2 : ℕ) :
    (closingNewPrice closeSide o1Bid o1Ask = s.price →
      closingRepriceStep closeSide o1Bid o1Ask s newId = ⟨0, 0, s⟩) ∧
    (closingNewPrice closeSide o1Bid o1Ask ≠ s.price →
      (closingRepriceStep closeSide o1Bid o1Ask s newId).places = 1 ∧
      ((closingRepriceStep closeSide o1Bid o1Ask s newId).cancels = 1 ↔
        s.orderId.isSome = true)) ∧
    (openingNewPrice side lBid lAsk = s2.price →
      openingRepriceStep side lBid lAsk s2 newId2 = ⟨0, 0, s2⟩) ∧
    (openingNewPrice side lBid lAsk ≠ s2.price →
      (openingRepriceStep side lBid lAsk s2 newId2).places = 1 ∧
      ((openingRepriceStep side lBid lAsk s2 newId2).cancels = 1 ↔
        s2.orderId.isSome = true)) := by
  refine ⟨fun h => ?_, fun h => ?_, fun h => ?_, fun h => ?_⟩
  · simp [closingRepriceStep, h]
  · cases hs : s.orderId <;> simp [closingRepriceStep, h, hs]
  · simp [openingRepriceStep, h]
  · cases hs : s2.orderId <;> simp [openingRepriceStep, h, hs]

/-- C9 witness: with the 01 book at 100/101 and close buffer 20, the
recomputed ask close price 121 equal to the resting price is a no-op,
while a resting price of 120 triggers one cancel and one placement. -/
theorem C9_no_redundant_requote_witness :
    closingRepriceStep .ask 100 101 ⟨121, some 3⟩ 4 = ⟨0, 0, ⟨121, some 3⟩⟩ ∧
    (closingRepriceStep .ask 100 101 ⟨120, some 3⟩ 4).places = 1 ∧
    ((closingRepriceStep .ask 100 101 ⟨120, some 3⟩ 4).cancels = 1 ↔
      (some 3 : Option ℕ).isSome = true) := by
  have h := C9_no_redundant_requote .ask .bid 100 101 100 101 ⟨121, some 3⟩
    ⟨121, some 3⟩ 4 4
  have hp : closingNewPrice .ask 100 101 = 121 := by
    norm_num [closingNewPrice, CLOSE_BUFFER_USD, pyRound, roundHalfEven]
  refine ⟨h.1 (by rw [hp]), ?_⟩
  have h2 := C9_no_redundant_requote .ask .bid 100 101 100 101 ⟨120, some 3⟩
    ⟨121, some 3⟩ 4 4
  exact h2.2.1 (by rw [hp]; norm_num)

/-- C3: in the opening phase, when every position read before the
timeout stays within the detection threshold of the baseline, the
outcome is decided by the final post-cancel read: a delta still within
the threshold means no fill (False), while a delta exceeding the
threshold is accepted as a partial fill whose side comes from the
delta's sign and whose size is its absolute value (True). -/
theorem C3_timeout_partial_fill (initPos bidPrice askPrice finalRead : ℚ)
    (reads : List ℚ)
    (hquiet : ∀ r ∈ reads, |r - initPos| ≤ positionDetectEps) :
    (|finalRead - initPos| ≤ positionDetectEps →
      openPoll initPos bidPrice askPrice reads finalRead = .noFill) ∧
    (positionDetectEps < |finalRead - initPos| →
      openPoll initPos bidPrice askPrice reads finalRead =
        .fill (if 0 < finalRead - initPos then .bid else .ask)
          |finalRead - initPos|
          (if 0 < finalRead - initPos then bidPrice else askPrice)) := by
  induction reads with
  | nil =>
    constructor
    · intro h
      simp [openPoll, not_lt.2 h]
    · intro h
      by_cases hd : 0 < finalRead - initPos <;>
        simp [openPoll, h, fillFromDelta, hd]
  | cons r rest ih =>
    have hr : ¬ positionDetectEps < |r - initPos| :=
      not_lt.2 (hquiet r (List.mem_cons_self r rest))
    have ih2 := ih (fun x hx => hquiet x (List.mem_cons_of_mem r hx))
    constructor
    · intro h
      simpa [openPoll, hr] using ih2.1 h
    · intro h
      simpa [openPoll, hr] using ih2.2 h

/-- C3 witness: with baseline 0 and one quiet in-window read, a final
post-cancel delta of 0.00002 is accepted as a bid partial fill of that
size, while a final delta of 0 reports no fill. -/
theorem C3_timeout_partial_fill_witness :
    openPoll 0 100 101 [0] (2/100000) = .fill .bid (2/100000) 100 ∧
    openPoll 0 100 101 [0] 0 = .noFill := by
  constructor
  · have h := (C3_timeout_partial_fill 0 100 101 (2/100000) [0]
      (by intro r hr; simp at hr; subst hr; norm_num [positionDetectEps])).2
      (by norm_num [positionDetectEps, abs_of_pos])
    rw [h]
    norm_num [abs_of_pos]
  · exact (C3_timeout_partial_fill 0 100 101 0 [0]
      (by intro r hr; simp at hr; subst hr; norm_num [positionDetectEps])).1
      (by norm_num [positionDetectEps])

/-- C8: each leg's estimated leveraged return has the form
sign x (mid - entry) / entry x leverage with the sign making a loss
negative for long and short alike, and a breach of the -80% threshold at
a periodic check makes the hold loop return immediately at that check,
strictly before the sampled hold duration has elapsed. -/
theorem C8_liquidation_trip (side : Side) (openPrice hedgePrice lev holdS t m : ℚ)
    (rest : List ℚ) (hop : 0 < openPrice) (hhp : 0 < hedgePrice) (hlev : 0 < lev)
    (hwindow : 15 < holdS - t)
    (hbreach : legPnl01 side openPrice lev m < liqThreshold ∨
      legPnlLighter side hedgePrice openPrice lev m < liqThreshold) :
    (holdLoop side openPrice hedgePrice lev holdS t (m :: rest) = .risk (t + 15) ∧
      t + 15 < holdS) ∧
    (legPnl01 .bid openPrice lev m = (m - openPrice) / openPrice * lev ∧
      legPnl01 .ask openPrice lev m = -1 * ((m - openPrice) / openPrice) * lev ∧
      legPnlLighter .bid hedgePrice openPrice lev m =
        -1 * ((m - hedgePrice) / hedgePrice) * lev ∧
      legPnlLighter .ask hedgePrice openPrice lev m =
        (m - hedgePrice) / hedgePrice * lev) ∧
    ((m < openPrice → legPnl01 .bid openPrice lev m < 0) ∧
      (openPrice < m → legPnl01 .ask openPrice lev m < 0) ∧
      (hedgePrice < m → legPnlLighter .bid hedgePrice openPrice lev m < 0) ∧
      (m < hedgePrice → legPnlLighter .ask hedgePrice openPrice lev m < 0)) := by
  have hne : hedgePrice ≠ 0 := ne_of_gt hhp
  have h0 : ¬ (holdS - t ≤ 0) := by linarith
  have hmin : min (holdS - t) 15 = 15 := min_eq_right (le_of_lt hwindow)
  have e01ask : legPnl01 .ask openPrice lev m = (openPrice - m) / openPrice * lev := by
    simp [legPnl01]
  have eLbid : legPnlLighter .bid hedgePrice openPrice lev m =
      (hedgePrice - m) / hedgePrice * lev := by
    simp [legPnlLighter, hne]
  have eLask : legPnlLighter .ask hedgePrice openPrice lev m =
      (m - hedgePrice) / hedgePrice * lev := by
    simp [legPnlLighter, hne]
  refine ⟨⟨?_, by linarith⟩, ⟨?_, ?_, ?_, ?_⟩, ?_, ?_, ?_, ?_⟩
  · simp only [holdLoop, if_neg h0, hmin]
    rw [if_pos hbreach]
  · simp [legPnl01]
  · rw [e01ask]
    ring
  · rw [eLbid]
    ring
  · exact eLask
  · intro hm
    exact mul_neg_of_neg_of_pos
      (div_neg_of_neg_of_pos (sub_neg.2 hm) hop) hlev
  · intro hm
    rw [e01ask]
    exact mul_neg_of_neg_of_pos
      (div_neg_of_neg_of_pos (sub_neg.2 hm) hop) hlev
  · intro hm
    rw [eLbid]
    exact mul_neg_of_neg_of_pos
      (div_neg_of_neg_of_pos (sub_neg.2 hm) hhp) hlev
  · intro hm
    rw [eLask]
    exact mul_neg_of_neg_of_pos
      (div_neg_of_neg_of_pos (sub_neg.2 hm) hhp) hlev

/-- C8 witness: a long 01 leg entered at 100 with leverage 40 and the
mid at 90 estimates a -400% return, so a 600-second hold trips at the
first 15-second check, well before the sampled duration. -/
theorem C8_liquidation_trip_witness :
    holdLoop .bid 100 100 40 600 0 [90] = .risk 15 ∧ (15 : ℚ) < 600 := by
  have h := (C8_liquidation_trip .bid 100 100 40 600 0 90 []
    (by norm_num) (by norm_num) (by norm_num) (by norm_num)
    (Or.inl (by norm_num [legPnl01, liqThreshold]))).1
  constructor
  · rw [h.1]
    norm_num
  · norm_num

/-- Whenever the selected residual is not dust, the unwind phase's first
submitted taker order is on the opposite side of the residual, for its
absolute size, with the first clock-derived id. -/
theorem unwind_first_order (e : UnwindEnv)
    (h : ¬ |unwindSelect e| < unwindDustEps) :
    (unwindPhase e).orders.head? =
      some ⟨if 0 < unwindSelect e then .sell else .buy, |unwindSelect e|, e.t1⟩ := by
  simp only [unwindPhase]
  rw [if_neg h]
  split_ifs <;> rfl

/-- An unwind run that pushed no alert ended with a dust-or-flat final
position: the only silent paths are the dust skip and a verification
poll that confirmed flatness. -/
theorem unwind_alerts_nil (e : UnwindEnv)
    (h : (unwindPhase e).alerts = []) :
    |(unwindPhase e).finalPos| ≤ unwindDustEps := by
  by_cases hd : |unwindSelect e| < unwindDustEps
  · simp only [unwindPhase, if_pos hd]
    exact le_of_lt hd
  · by_cases ho : e.orderOk = true
    · by_cases hf : unwindDustEps <
          |pollVerify (unwindSelect e) (unwindSelect e) e.pollReads|
      · exfalso
        simp only [unwindPhase, if_neg hd, ho, if_true, if_pos hf] at h
        split_ifs at h
      · simp only [unwindPhase, if_neg hd, ho, if_true, if_neg hf]
        simpa using not_lt.1 hf
    · exfalso
      simp only [unwindPhase, if_neg hd, if_neg ho] at h
      simp at h

/-- C6: when the first settle read of the taker position is beyond dust,
the unwind order is computed from the second read exactly when the
second read is strictly smaller in magnitude, and from the first read
otherwise. -/
theorem C6_unwind_second_read (e : UnwindEnv)
    (h1 : unwindDustEps < |e.read1|) :
    (|e.read2| < |e.read1| → unwindDustEps ≤ |e.read2| →
      (unwindPhase e).orders.head? =
        some ⟨if 0 < e.read2 then .sell else .buy, |e.read2|, e.t1⟩) ∧
    (|e.read1| ≤ |e.read2| →
      (unwindPhase e).orders.head? =
        some ⟨if 0 < e.read1 then .sell else .buy, |e.read1|, e.t1⟩) := by
  have hs : unwindSelect e = if |e.read2| < |e.read1| then e.read2 else e.read1 := by
    simp [unwindSelect, h1]
  constructor
  · intro h2 h3
    have hsel : unwindSelect e = e.read2 := by rw [hs, if_pos h2]
    have hnd : ¬ |unwindSelect e| < unwindDustEps := by
      rw [hsel]
      exact not_lt.2 h3
    rw [unwind_first_order e hnd, hsel]
  · intro h2
    have hsel : unwindSelect e = e.read1 := by rw [hs, if_neg (not_lt.2 h2)]
    have hnd : ¬ |unwindSelect e| < unwindDustEps := by
      rw [hsel]
      exact not_lt.2 (le_of_lt h1)
    rw [unwind_first_order e hnd, hsel]

/-- C6 witness: first read 0.01; a smaller second read 0.005 drives the
unwind (sell 0.005), while a larger second read 0.02 leaves the first
read in charge (sell 0.01). -/
theorem C6_unwind_second_read_witness :
    (unwindPhase ⟨1/100, 1/200, true, [], 0, 3, 9⟩).orders.head? =
      some ⟨.sell, 1/200, 3⟩ ∧
    (unwindPhase ⟨1/100, 1/50, true, [], 0, 3, 9⟩).orders.head? =
      some ⟨.sell, 1/100, 3⟩ := by
  constructor
  · have h := (C6_unwind_second_read ⟨1/100, 1/200, true, [], 0, 3, 9⟩
      (by norm_num [unwindDustEps, abs_of_pos])).1
      (by norm_num [abs_of_pos]) (by norm_num [unwindDustEps, abs_of_pos])
    rw [h]
    norm_num [abs_of_pos]
  · have h := (C6_unwind_second_read ⟨1/100, 1/50, true, [], 0, 3, 9⟩
      (by norm_num [unwindDustEps, abs_of_pos])).2
      (by norm_num [abs_of_pos])
    rw [h]
    norm_num [abs_of_pos]

/-- C7: the verification poll stops at the first sign-flipped read; a
flip after the poll yields no retry and the flip alert; a residual
without a flip yields exactly one retry carrying the fresh clock id
(distinct from the first order's id under a monotone clock) followed by
a critical alert when the post-retry read is still not flat; and no run
of the unwind phase ever submits more than two taker orders. -/
theorem C7_sign_flip_halt :
    (∀ pre cur r : ℚ, ∀ rest : List ℚ, ¬ |r| < unwindDustEps →
      flippedSign pre r = true → pollVerify pre cur (r :: rest) = r) ∧
    (∀ e : UnwindEnv, ¬ |unwindSelect e| < unwindDustEps → e.orderOk = true →
      unwindDustEps < |pollVerify (unwindSelect e) (unwindSelect e) e.pollReads| →
      flippedSign (unwindSelect e)
          (pollVerify (unwindSelect e) (unwindSelect e) e.pollReads) = true →
      (unwindPhase e).orders.length = 1 ∧
      (unwindPhase e).alerts = [.flipNoRetry]) ∧
    (∀ e : UnwindEnv, ¬ |unwindSelect e| < unwindDustEps → e.orderOk = true →
      unwindDustEps < |pollVerify (unwindSelect e) (unwindSelect e) e.pollReads| →
      flippedSign (unwindSelect e)
          (pollVerify (unwindSelect e) (unwindSelect e) e.pollReads) = false →
      (unwindPhase e).orders.length = 2 ∧
      ((unwindPhase e).orders.getLast?).map TakerOrder.customId = some (e.t2 + 7) ∧
      (e.t1 ≤ e.t2 → e.t2 + 7 ≠ e.t1) ∧
      (unwindDustEps < |e.retryRead| →
        UnwindAlert.critical ∈ (unwindPhase e).alerts)) ∧
    (∀ e : UnwindEnv, (unwindPhase e).orders.length ≤ 2) := by
  refine ⟨?_, ?_, ?_, ?_⟩
  · intro pre cur r rest hnr hf
    simp [pollVerify, hnr, hf]
  · intro e h1 ho h3 h4
    simp only [unwindPhase]
    rw [if_neg h1]
    simp only [ho, if_true, if_pos h3, if_pos h4]
    constructor <;> first | rfl | trivial
  · intro e h1 ho h3 h4
    simp only [unwindPhase]
    rw [if_neg h1]
    simp only [ho, if_true, if_pos h3, h4, Bool.false_eq_true, if_false]
    refine ⟨?_, ?_, by omega, ?_⟩
    · split_ifs <;> rfl
    · split_ifs <;> rfl
    · intro hr
      rw [if_pos hr]
      simp
  · intro e
    simp only [unwindPhase]
    split_ifs <;> simp

/-- C7 witness: with pre-unwind position 0.01, a poll read of -0.01
(sign flip) halts with the flip alert and a single order; with a poll
read of 0.005 and no flip, exactly one retry with id t2 + 7 = 16 is
submitted and the stuck post-retry read raises the critical alert; the
flip case also illustrates that later poll reads are not consumed. -/
theorem C7_sign_flip_halt_witness :
    pollVerify (1/100) (1/100) [-(1/100), 1/100] = -(1/100) ∧
    ((unwindPhase ⟨1/100, 1/100, true, [-(1/100)], 0, 5, 9⟩).orders.length = 1 ∧
      (unwindPhase ⟨1/100, 1/100, true, [-(1/100)], 0, 5, 9⟩).alerts =
        [.flipNoRetry]) ∧
    ((unwindPhase ⟨1/100, 1/100, true, [1/200], 1/300, 5, 9⟩).orders.length = 2 ∧
      UnwindAlert.critical ∈
        (unwindPhase ⟨1/100, 1/100, true, [1/200], 1/300, 5, 9⟩).alerts) := by
  have hsel : ∀ r2 pr rr : ℚ, ∀ t1 t2 : ℕ,
      unwindSelect ⟨1/100, r2, true, [pr], rr, t1, t2⟩ = if |r2| < 1/100 then r2 else 1/100 := by
    intro r2 pr rr t1 t2
    norm_num [unwindSelect, unwindDustEps, abs_of_pos]
  constructor
  · exact C7_sign_flip_halt.1 (1/100) (1/100) (-(1/100)) [1/100]
      (by norm_num [unwindDustEps, abs_of_neg])
      (by norm_num [flippedSign, unwindDustEps])
  constructor
  · have hs : unwindSelect ⟨1/100, 1/100, true, [-(1/100)], 0, 5, 9⟩ = 1/100 := by
      rw [hsel]
      norm_num [abs_of_pos]
    have hpv : pollVerify (1/100 : ℚ) (1/100) [-(1/100)] = -(1/100) := by
      norm_num [pollVerify, unwindDustEps, abs_of_neg, flippedSign]
    refine C7_sign_flip_halt.2.1 ⟨1/100, 1/100, true, [-(1/100)], 0, 5, 9⟩ ?_ rfl ?_ ?_
    · rw [hs]
      norm_num [unwindDustEps, abs_of_pos]
    · show unwindDustEps < |pollVerify (unwindSelect _) (unwindSelect _) _|
      rw [hs, hpv]
      norm_num [unwindDustEps, abs_of_neg]
    · show flippedSign (unwindSelect _) (pollVerify (unwindSelect _) (unwindSelect _) _) = true
      rw [hs, hpv]
      norm_num [flippedSign, unwindDustEps]
  · have hs : unwindSelect ⟨1/100, 1/100, true, [1/200], 1/300, 5, 9⟩ = 1/100 := by
      rw [hsel]
      norm_num [abs_of_pos]
    have hpv : pollVerify (1/100 : ℚ) (1/100) [1/200] = 1/200 := by
      norm_num [pollVerify, unwindDustEps, abs_of_pos, flippedSign]
    have h := C7_sign_flip_halt.2.2.1 ⟨1/100, 1/100, true, [1/200], 1/300, 5, 9⟩
      (by rw [hs]; norm_num [unwindDustEps, abs_of_pos]) rfl
      (by show unwindDustEps < |pollVerify (unwindSelect _) (unwindSelect _) _|
          rw [hs, hpv]
          norm_num [unwindDustEps, abs_of_pos])
      (by show flippedSign (unwindSelect _) (pollVerify (unwindSelect _) (unwindSelect _) _) = false
          rw [hs, hpv]
          norm_num [flippedSign, unwindDustEps])
    exact ⟨h.1, h.2.2.2 (by norm_num [unwindDustEps, abs_of_pos])⟩

/-- C1 counterexample: a completed cycle in which closing reported flat
with a residual 01 position of 0.000009 and the unwind phase silently
skipped a 0.000004 taker-venue dust position ends with combined
exposure 0.000013, which is not within the claimed 0.000005 tolerance. -/
theorem C1_delta_neutral_counterexample :
    closingFlat (9/1000000) ∧
    (unwindPhase ⟨1/250000, 0, true, [], 0, 0, 0⟩).alerts = [] ∧
    ¬ |cycleEndExposure (9/1000000) ⟨1/250000, 0, true, [], 0, 0, 0⟩| <
      unwindDustEps := by
  norm_num [closingFlat, positionDetectEps, cycleEndExposure, unwindPhase,
    unwindSelect, unwindDustEps, abs_of_pos]

/-- C1 amended: the 0.000005 dust tolerance applies to the taker leg
alone.  For a completed cycle whose closing phase reported flat (which
bounds the 01 leg by 0.00001) and whose unwind phase finished without
any alert (which bounds the taker leg by 0.000005), the combined signed
exposure satisfies the sum of the two per-leg bounds:
abs(positionA + positionB) < 0.000015. -/
theorem C1_delta_neutral_amended (posA : ℚ) (e : UnwindEnv)
    (hA : closingFlat posA) (hU : (unwindPhase e).alerts = []) :
    |(unwindPhase e).finalPos| ≤ unwindDustEps ∧
    |cycleEndExposure posA e| < 3/200000 := by
  have hB := unwind_alerts_nil e hU
  have h1 : |posA| < 1/100000 := hA
  have h2 : |(unwindPhase e).finalPos| ≤ 1/200000 := hB
  refine ⟨hB, ?_⟩
  calc |cycleEndExposure posA e| ≤ |posA| + |(unwindPhase e).finalPos| :=
        abs_add _ _
    _ < 1/100000 + 1/200000 := by linarith
    _ = 3/200000 := by norm_num

/-- C1 amended witness: a fully flat cycle (01 leg 0, taker read 0)
satisfies both per-leg bounds and the combined 0.000015 bound. -/
theorem C1_delta_neutral_amended_witness :
    |(unwindPhase ⟨0, 0, true, [], 0, 0, 0⟩).finalPos| ≤ unwindDustEps ∧
    |cycleEndExposure 0 ⟨0, 0, true, [], 0, 0, 0⟩| < 3/200000 :=
  C1_delta_neutral_amended 0 ⟨0, 0, true, [], 0, 0, 0⟩
    (by norm_num [closingFlat, positionDetectEps])
    (by norm_num [unwindPhase, unwindSelect, unwindDustEps])

/-- Unfolding of the accumulation loop on an empty outcome list. -/
theorem accumLoop_nil (target total : ℚ) (attempts : ℕ) (hist : List ℚ) :
    accumLoop target total attempts hist [] =
      if ¬ total < target * (19/20) then ⟨total, attempts, hist, .targetReached, true⟩
      else if 10 < attempts + 1 then ⟨total, attempts + 1, hist, .attemptCap, true⟩
      else ⟨total, attempts + 1, hist, .starved, true⟩ := by
  rw [accumLoop.eq_def]

/-- Unfolding of the accumulation loop on a no-fill attempt. -/
theorem accumLoop_noFill (target total : ℚ) (attempts : ℕ) (hist : List ℚ)
    (rest : List AttemptOutcome) :
    accumLoop target total attempts hist (.noFill :: rest) =
      if ¬ total < target * (19/20) then ⟨total, attempts, hist, .targetReached, true⟩
      else if 10 < attempts + 1 then ⟨total, attempts + 1, hist, .attemptCap, true⟩
      else if 0 < total then ⟨total, attempts + 1, hist, .noMoreFills, true⟩
      else accumLoop target total (attempts + 1) (total :: hist) rest := by
  rw [accumLoop.eq_def]

/-- Unfolding of the accumulation loop on a fill attempt. -/
theorem accumLoop_fill (target total sz sd : ℚ) (hOk cOk : Bool) (attempts : ℕ)
    (hist : List ℚ) (rest : List AttemptOutcome) :
    accumLoop target total attempts hist (.fill sz hOk sd cOk :: rest) =
      if ¬ total < target * (19/20) then ⟨total, attempts, hist, .targetReached, true⟩
      else if 10 < attempts + 1 then ⟨total, attempts + 1, hist, .attemptCap, true⟩
      else if hOk = true then
        accumLoop target
          (total + if positionDetectEps < pyRound 5 (sd - sz) then
            (if cOk = true then sz + pyRound 5 (sd - sz) else sz) else sz)
          (attempts + 1)
          ((total + if positionDetectEps < pyRound 5 (sd - sz) then
            (if cOk = true then sz + pyRound 5 (sd - sz) else sz) else sz) :: hist)
          rest
      else ⟨0, attempts + 1, (0 : ℚ) :: hist, .hedgeFailed, false⟩ := by
  rw [accumLoop.eq_def]

/-- Dropping the newest entry of a nondecreasing history keeps it
nondecreasing. -/
theorem nondecRev_tail (a : ℚ) (l : List ℚ) (h : nondecRev (a :: l) = true) :
    nondecRev l = true := by
  cases l with
  | nil => rfl
  | cons b t =>
    simp only [nondecRev, Bool.and_eq_true, decide_eq_true_eq] at h
    exact h.2

/-- Pushing a value at least as large as the newest entry keeps a
history nondecreasing. -/
theorem nondecRev_push (a b : ℚ) (l : List ℚ) (hab : b ≤ a)
    (h : nondecRev (b :: l) = true) : nondecRev (a :: b :: l) = true := by
  simp only [nondecRev, Bool.and_eq_true, decide_eq_true_eq]
  exact ⟨hab, h⟩

/-- Replacing the newest entry of a nondecreasing history by a larger
value keeps it nondecreasing. -/
theorem nondecRev_replaceHead (a b : ℚ) (l : List ℚ) (hab : b ≤ a)
    (h : nondecRev (b :: l) = true) : nondecRev (a :: l) = true := by
  cases l with
  | nil => rfl
  | cons c t =>
    simp only [nondecRev, Bool.and_eq_true, decide_eq_true_eq] at h ⊢
    exact ⟨le_trans h.1 hab, h.2⟩

/-- Invariant run of the accumulation loop: from any state whose total
is zero or above the detection threshold and whose recorded history is
nondecreasing up to the current total, the loop keeps the history
nondecreasing except through the hedge-failure reset, and each exit kind
carries its guarantee (target exit at or above 95% of target, cap exit
past 10 attempts, no-more-fills exit with a positive partial above the
detection threshold, hedge-failure exit with a zeroed total and the bot
disabled). -/
theorem accumLoop_run (target : ℚ) (outs : List AttemptOutcome)
    (hwf : ∀ o ∈ outs, wfOutcome o) :
    ∀ total attempts hist,
      (total = 0 ∨ positionDetectEps < total) →
      nondecRev (total :: hist) = true →
      ((accumLoop target total attempts hist outs).exitKind ≠ .hedgeFailed →
        nondecRev (accumLoop target total attempts hist outs).historyRev = true) ∧
      ((accumLoop target total attempts hist outs).exitKind = .targetReached →
        target * (19/20) ≤ (accumLoop target total attempts hist outs).totalFilled) ∧
      ((accumLoop target total attempts hist outs).exitKind = .attemptCap →
        10 < (accumLoop target total attempts hist outs).fillAttempts) ∧
      ((accumLoop target total attempts hist outs).exitKind = .noMoreFills →
        positionDetectEps < (accumLoop target total attempts hist outs).totalFilled) ∧
      ((accumLoop target total attempts hist outs).exitKind = .hedgeFailed →
        (accumLoop target total attempts hist outs).totalFilled = 0 ∧
        (accumLoop target total attempts hist outs).enabled = false) := by
  have heps : (0 : ℚ) < positionDetectEps := by norm_num [positionDetectEps]
  induction outs with
  | nil =>
    intro total attempts hist hpos hnd
    by_cases hg : ¬ total < target * (19/20)
    · rw [accumLoop_nil, if_pos hg]
      exact ⟨fun _ => nondecRev_tail _ _ hnd, fun _ => not_lt.1 hg,
        by simp, by simp, by simp⟩
    · by_cases hc : 10 < attempts + 1
      · rw [accumLoop_nil, if_neg hg, if_pos hc]
        exact ⟨fun _ => nondecRev_tail _ _ hnd, by simp, fun _ => hc,
          by simp, by simp⟩
      · rw [accumLoop_nil, if_neg hg, if_neg hc]
        exact ⟨fun _ => nondecRev_tail _ _ hnd, by simp, by simp,
          by simp, by simp⟩
  | cons o rest ih =>
    intro total attempts hist hpos hnd
    have hwfo : wfOutcome o := hwf o (List.mem_cons_self o rest)
    have hwfr : ∀ x ∈ rest, wfOutcome x :=
      fun x hx => hwf x (List.mem_cons_of_mem o hx)
    cases o with
    | noFill =>
      by_cases hg : ¬ total < target * (19/20)
      · rw [accumLoop_noFill, if_pos hg]
        exact ⟨fun _ => nondecRev_tail _ _ hnd, fun _ => not_lt.1 hg,
          by simp, by simp, by simp⟩
      · by_cases hc : 10 < attempts + 1
        · rw [accumLoop_noFill, if_neg hg, if_pos hc]
          exact ⟨fun _ => nondecRev_tail _ _ hnd, by simp, fun _ => hc,
            by simp, by simp⟩
        · by_cases ht : 0 < total
          · rw [accumLoop_noFill, if_neg hg, if_neg hc, if_pos ht]
            refine ⟨fun _ => nondecRev_tail _ _ hnd, by simp, by simp,
              fun _ => ?_, by simp⟩
            rcases hpos with h0 | h0
            · rw [h0] at ht
              exact absurd ht (lt_irrefl 0)
            · exact h0
          · rw [accumLoop_noFill, if_neg hg, if_neg hc, if_neg ht]
            exact ih hwfr total (attempts + 1) (total :: hist) hpos
              (nondecRev_push total total hist le_rfl hnd)
    | fill sz hOk sd cOk =>
      by_cases hg : ¬ total < target * (19/20)
      · rw [accumLoop_fill, if_pos hg]
        exact ⟨fun _ => nondecRev_tail _ _ hnd, fun _ => not_lt.1 hg,
          by simp, by simp, by simp⟩
      · by_cases hc : 10 < attempts + 1
        · rw [accumLoop_fill, if_neg hg, if_pos hc]
          exact ⟨fun _ => nondecRev_tail _ _ hnd, by simp, fun _ => hc,
            by simp, by simp⟩
        · cases hOk with
          | false =>
            rw [accumLoop_fill, if_neg hg, if_neg hc,
              if_neg (by simp : ¬ (false = true))]
            exact ⟨fun hk => absurd rfl hk, by simp, by simp, by simp,
              fun _ => ⟨rfl, rfl⟩⟩
          | true =>
            rw [accumLoop_fill, if_neg hg, if_neg hc, if_pos rfl]
            have hsz : positionDetectEps < sz := hwfo
            have hhlb : positionDetectEps <
                (if positionDetectEps < pyRound 5 (sd - sz) then
                  (if cOk = true then sz + pyRound 5 (sd - sz) else sz) else sz) := by
              split_ifs with h1 h2
              · linarith
              · exact hsz
              · exact hsz
            have htot : 0 ≤ total := by
              rcases hpos with h0 | h0
              · rw [h0]
              · linarith
            refine ih hwfr _ (attempts + 1) _ (Or.inr (by linarith)) ?_
            exact nondecRev_push _ _ hist le_rfl
              (nondecRev_replaceHead _ total hist (by linarith) hnd)

/-- C2 counterexample: a well-formed trace whose first attempt fills and
hedges 0.01 and whose second attempt fills 0.005 but fails to hedge
drives total_filled from 0.01 back to 0, so the accumulated total is
not non-decreasing, and the loop terminates with neither the 95% target
reached nor the attempt cap exceeded, refuting the claim as stated. -/
theorem C2_accumulation_counterexample :
    (∀ o ∈ [AttemptOutcome.fill (1/100) true (1/100) true,
        AttemptOutcome.fill (1/200) false (1/200) true], wfOutcome o) ∧
    nondecRev (accumLoop (1/50) 0 0 []
      [AttemptOutcome.fill (1/100) true (1/100) true,
        AttemptOutcome.fill (1/200) false (1/200) true]).historyRev = false ∧
    (accumLoop (1/50) 0 0 []
      [AttemptOutcome.fill (1/100) true (1/100) true,
        AttemptOutcome.fill (1/200) false (1/200) true]).exitKind ≠ .targetReached ∧
    (accumLoop (1/50) 0 0 []
      [AttemptOutcome.fill (1/100) true (1/100) true,
        AttemptOutcome.fill (1/200) false (1/200) true]).exitKind ≠ .attemptCap ∧
    (accumLoop (1/50) 0 0 []
      [AttemptOutcome.fill (1/100) true (1/100) true,
        AttemptOutcome.fill (1/200) false (1/200) true]).totalFilled <
      (1/50) * (19/20) ∧
    (accumLoop (1/50) 0 0 []
      [AttemptOutcome.fill (1/100) true (1/100) true,
        AttemptOutcome.fill (1/200) false (1/200) true]).fillAttempts ≤ 10 := by
  have hrun : accumLoop (1/50) 0 0 []
      [AttemptOutcome.fill (1/100) true (1/100) true,
        AttemptOutcome.fill (1/200) false (1/200) true] =
      ⟨0, 2, [0, 1/100], .hedgeFailed, false⟩ := by
    norm_num [accumLoop, positionDetectEps, pyRound, roundHalfEven]
  refine ⟨?_, ?_, ?_, ?_, ?_, ?_⟩
  · intro o ho
    simp only [List.mem_cons, List.mem_singleton, List.not_mem_nil, or_false] at ho
    rcases ho with h | h <;> subst h <;> norm_num [wfOutcome, positionDetectEps]
  · rw [hrun]
    norm_num [nondecRev]
  · rw [hrun]
    simp
  · rw [hrun]
    simp
  · rw [hrun]
    norm_num
  · rw [hrun]
    norm_num

/-- C2 amended: over the iterations of one accumulation loop whose
reported fills exceed the detection threshold, the recorded totals are
non-decreasing except that a failed hedge resets the total to zero (and
disables the bot); the loop terminates at the 95% target (with at least
that much filled), at the attempt cap (with more than 10 attempts
counted), at a no-fill attempt with a non-zero partial (which is then
above the 0.00001 gate and so is carried forward to the hold/close
phases), or at a hedge failure. -/
theorem C2_accumulation_amended (target : ℚ) (outs : List AttemptOutcome)
    (hwf : ∀ o ∈ outs, wfOutcome o) :
    ((accumLoop target 0 0 [] outs).exitKind ≠ .hedgeFailed →
      nondecRev (accumLoop target 0 0 [] outs).historyRev = true) ∧
    ((accumLoop target 0 0 [] outs).exitKind = .targetReached →
      target * (19/20) ≤ (accumLoop target 0 0 [] outs).totalFilled) ∧
    ((accumLoop target 0 0 [] outs).exitKind = .attemptCap →
      10 < (accumLoop target 0 0 [] outs).fillAttempts) ∧
    ((accumLoop target 0 0 [] outs).exitKind = .noMoreFills →
      positionDetectEps < (accumLoop target 0 0 [] outs).totalFilled ∧
      proceedsToHold (accumLoop target 0 0 [] outs).totalFilled = true) ∧
    ((accumLoop target 0 0 [] outs).exitKind = .hedgeFailed →
      (accumLoop target 0 0 [] outs).totalFilled = 0 ∧
      (accumLoop target 0 0 [] outs).enabled = false) := by
  have h := accumLoop_run target outs hwf 0 0 [] (Or.inl rfl) rfl
  refine ⟨h.1, h.2.1, h.2.2.1, fun hk => ?_, h.2.2.2.2⟩
  have h4 := h.2.2.2.1 hk
  refine ⟨h4, ?_⟩
  simp only [proceedsToHold, decide_eq_true_eq]
  exact le_of_lt h4

/-- C2 amended witness: a single attempt that fills and hedges the full
0.02 target leaves a nondecreasing history and exits at the target with
the full size accumulated. -/
theorem C2_accumulation_amended_witness :
    nondecRev (accumLoop (1/50) 0 0 []
      [AttemptOutcome.fill (1/50) true (1/50) true]).historyRev = true ∧
    (1/50 : ℚ) * (19/20) ≤
      (accumLoop (1/50) 0 0 []
        [AttemptOutcome.fill (1/50) true (1/50) true]).totalFilled := by
  have h := C2_accumulation_amended (1/50)
    [AttemptOutcome.fill (1/50) true (1/50) true]
    (by
      intro o ho
      simp only [List.mem_singleton] at ho
      subst ho
      norm_num [wfOutcome, positionDetectEps])
  have hrun : accumLoop (1/50) 0 0 []
      [AttemptOutcome.fill (1/50) true (1/50) true] =
      ⟨1/50, 1, [1/50], .targetReached, true⟩ := by
    norm_num [accumLoop, positionDetectEps, pyRound, roundHalfEven]
  exact ⟨h.1 (by rw [hrun]; simp), h.2.1 (by rw [hrun])⟩

end CycleFarm






